import Mathlib

/-!
Verification development for the Gantt chart rendering component
(`projects/gantt-charts/src/lib/gantt-view/gantt-view.component.ts`).

Modelling conventions:
* A JavaScript `Date` is modelled by its integer millisecond timestamp (`ℤ`).
  Local time is identified with UTC (no DST), so the calendar accessors
  (`getFullYear`, `getMonth`, `getDate`) and mutators (`setDate`) are modelled
  by the ECMAScript `YearFromTime` / `MonthFromTime` / `DateFromTime` /
  `MakeDay` / `MakeDate` operations over a proleptic Gregorian calendar,
  with months numbered 0..11 as in JS.
* JS numbers are modelled by exact rationals `ℚ`.  For the magnitudes that
  occur here (timestamps below 2^53, day counts below 2^50) every floor/ceil
  comparison done by the component is exact in IEEE-754 doubles as well, so
  the rational model agrees with the float semantics.  The one place where a
  division by zero can occur (`canvasWidth / totalUnits`) is modelled with an
  explicit IEEE value type (`JSNum`) carrying `±∞` and `NaN`.
* The day-number/civil-date conversions below implement the ECMAScript
  specification operations; `civilFromDays` extracts the year by clamped
  century/quadrennium/year decomposition of a March-aligned 400-year era,
  `daysFromCivil` is the `MakeDay` direction (month out-of-range
  normalisation included).
-/

/-- Century (0..3) within a March-aligned 400-year era, from day-of-era. -/
def centOf (doe : ℤ) : ℤ := min (doe / 36524) 3

/-- Quadrennium (0..24) within the century picked by `centOf`. -/
def quadOf (doe : ℤ) : ℤ := min ((doe - 36524 * centOf doe) / 1461) 24

/-- Year (0..3) within the quadrennium picked by `quadOf`. -/
def yiqOf (doe : ℤ) : ℤ := min ((doe - 36524 * centOf doe - 1461 * quadOf doe) / 365) 3

/-- Year-of-era (0..399) within a March-aligned 400-year Gregorian era. -/
def yoeOfDoe (doe : ℤ) : ℤ := 100 * centOf doe + 4 * quadOf doe + yiqOf doe

/-- Day-of-year (0..365) within the March-aligned year picked by `yoeOfDoe`. -/
def doyOfDoe (doe : ℤ) : ℤ := doe - 36524 * centOf doe - 1461 * quadOf doe - 365 * yiqOf doe

theorem clamp_spec (doe : ℤ) (h0 : 0 ≤ doe) (h1 : doe ≤ 146096) :
    0 ≤ centOf doe ∧ centOf doe ≤ 3 ∧ 0 ≤ quadOf doe ∧ quadOf doe ≤ 24 ∧
      0 ≤ yiqOf doe ∧ yiqOf doe ≤ 3 ∧ 0 ≤ doyOfDoe doe ∧ doyOfDoe doe ≤ 365 ∧
      36524 * centOf doe + 1461 * quadOf doe + 365 * yiqOf doe + doyOfDoe doe = doe := by
  simp only [centOf, quadOf, yiqOf, doyOfDoe]
  omega

theorem f_decomp (c q r : ℤ) (hc0 : 0 ≤ c) (hc1 : c ≤ 3) (hq0 : 0 ≤ q) (hq1 : q ≤ 24)
    (hr0 : 0 ≤ r) (hr1 : r ≤ 3) :
    365 * (100 * c + 4 * q + r) + (100 * c + 4 * q + r) / 4 - (100 * c + 4 * q + r) / 100 =
      36524 * c + 1461 * q + 365 * r := by
  omega

/-- The decomposition inverts the day-count formula of the era. -/
theorem yoe_doy_spec (doe : ℤ) (h0 : 0 ≤ doe) (h1 : doe ≤ 146096) :
    0 ≤ yoeOfDoe doe ∧ yoeOfDoe doe ≤ 399 ∧ 0 ≤ doyOfDoe doe ∧ doyOfDoe doe ≤ 365 ∧
      365 * yoeOfDoe doe + yoeOfDoe doe / 4 - yoeOfDoe doe / 100 + doyOfDoe doe = doe := by
  have h2 := clamp_spec doe h0 h1
  have h3 := f_decomp (centOf doe) (quadOf doe) (yiqOf doe) h2.1 h2.2.1 h2.2.2.1 h2.2.2.2.1
    h2.2.2.2.2.1 h2.2.2.2.2.2.1
  simp only [yoeOfDoe]
  omega

theorem mp_spec (doy : ℤ) (h0 : 0 ≤ doy) (h1 : doy ≤ 365) :
    0 ≤ (5 * doy + 2) / 153 ∧ (5 * doy + 2) / 153 ≤ 11 ∧
      (153 * ((5 * doy + 2) / 153) + 2) / 5 ≤ doy ∧
      doy - (153 * ((5 * doy + 2) / 153) + 2) / 5 ≤ 30 := by
  omega

/-- Day number (days since 1970-01-01) to civil date (year, month 0..11, day 1..31). -/
def civilFromDays (z : ℤ) : ℤ × ℤ × ℤ :=
  let z' := z + 719468
  let era := z' / 146097
  let doe := z' % 146097
  let yoe := yoeOfDoe doe
  let doy := doyOfDoe doe
  let mp := (5 * doy + 2) / 153
  let d := doy - (153 * mp + 2) / 5 + 1
  let m := if mp < 10 then mp + 3 else mp - 9
  (if m ≤ 2 then era * 400 + yoe + 1 else era * 400 + yoe, m - 1, d)

/-- Civil date to day number: the ECMAScript `MakeDay` operation (the month is
normalised by `ym = y + floor(m/12)`, `mn = m mod 12`; the day may be any
integer and enters linearly). -/
def daysFromCivil (y m0 d : ℤ) : ℤ :=
  let ym := y + m0 / 12
  let mn := m0 % 12
  let m1 := mn + 1
  let yy := if m1 ≤ 2 then ym - 1 else ym
  let era := yy / 400
  let yoe := yy - era * 400
  let doy := (153 * (if m1 > 2 then m1 - 3 else m1 + 9) + 2) / 5 + d - 1
  let doe := yoe * 365 + yoe / 4 - yoe / 100 + doy
  era * 146097 + doe - 719468

example : civilFromDays 0 = (1970, 0, 1) := by decide
example : civilFromDays 19723 = (2024, 0, 1) := by decide
example : daysFromCivil 2024 0 1 = 19723 := by decide
example : civilFromDays (-1) = (1969, 11, 31) := by decide
example : civilFromDays 19782 = (2024, 1, 29) := by decide
example : daysFromCivil 2024 1 29 = 19782 := by decide

set_option maxHeartbeats 1000000 in
theorem reassemble (era yoe doy mp : ℤ)
    (hy0 : 0 ≤ yoe) (hy1 : yoe ≤ 399) (hd0 : 0 ≤ doy) (hd1 : doy ≤ 365)
    (hmp0 : 0 ≤ mp) (hmp1 : mp ≤ 11) :
    daysFromCivil
        (if (if mp < 10 then mp + 3 else mp - 9) ≤ 2 then era * 400 + yoe + 1 else era * 400 + yoe)
        ((if mp < 10 then mp + 3 else mp - 9) - 1)
        (doy - (153 * mp + 2) / 5 + 1) =
      era * 146097 + (yoe * 365 + yoe / 4 - yoe / 100 +
        ((153 * mp + 2) / 5 + (doy - (153 * mp + 2) / 5 + 1) - 1)) - 719468 := by
  simp only [daysFromCivil]
  interval_cases mp <;> norm_num <;> omega

set_option maxHeartbeats 1000000 in
/-- Round trip: converting a day number to a civil date and back is the identity. -/
theorem days_civil_roundtrip (z : ℤ) :
    daysFromCivil (civilFromDays z).1 (civilFromDays z).2.1 (civilFromDays z).2.2 = z := by
  have hd : 0 ≤ (z + 719468) % 146097 ∧ (z + 719468) % 146097 ≤ 146096 := by omega
  have h1 := yoe_doy_spec ((z + 719468) % 146097) hd.1 hd.2
  have h2 := mp_spec (doyOfDoe ((z + 719468) % 146097)) h1.2.2.1 h1.2.2.2.1
  have h3 := reassemble ((z + 719468) / 146097) (yoeOfDoe ((z + 719468) % 146097))
    (doyOfDoe ((z + 719468) % 146097)) ((5 * doyOfDoe ((z + 719468) % 146097) + 2) / 153)
    h1.1 h1.2.1 h1.2.2.1 h1.2.2.2.1 h2.1 h2.2.1
  simp only [civilFromDays]
  omega

/-- `MakeDay` is linear in its day argument. -/
theorem dfc_linear_in_d (y m0 d d' : ℤ) :
    daysFromCivil y m0 d' = daysFromCivil y m0 d + (d' - d) := by
  simp only [daysFromCivil]
  split_ifs <;> ring

theorem qc_step (y : ℤ) : y / 4 - y / 100 ≤ (y + 1) / 4 - (y + 1) / 100 := by omega

theorem qc_mono (y1 y2 : ℤ) (h : y1 ≤ y2) : y1 / 4 - y1 / 100 ≤ y2 / 4 - y2 / 100 := by
  exact Int.le_induction (P := fun n => y1 / 4 - y1 / 100 ≤ n / 4 - n / 100)
    (le_refl _) (fun n _ ih => le_trans ih (qc_step n)) y2 h

theorem uniq_a (era yoe doy : ℤ) (hy0 : 0 ≤ yoe) (hy1 : yoe ≤ 399)
    (hd0 : 1 ≤ doy) (hd1 : doy ≤ 364) :
    (era * 146097 + (365 * yoe + yoe / 4 - yoe / 100 + doy)) / 146097 = era := by
  omega

theorem uniq_b (era yoe doy : ℤ) (hy0 : 0 ≤ yoe) (hy1 : yoe ≤ 399)
    (hd0 : 1 ≤ doy) (hd1 : doy ≤ 364) :
    (era * 146097 + (365 * yoe + yoe / 4 - yoe / 100 + doy)) % 146097 =
      365 * yoe + yoe / 4 - yoe / 100 + doy := by
  omega

/-- Uniqueness: a (year-of-era, day-of-year) pair with `1 ≤ doy ≤ 364` is
recovered exactly by the decomposition. -/
theorem uniq_c (yoe doy : ℤ) (hy0 : 0 ≤ yoe) (hy1 : yoe ≤ 399)
    (hd0 : 1 ≤ doy) (hd1 : doy ≤ 364) :
    yoeOfDoe (365 * yoe + yoe / 4 - yoe / 100 + doy) = yoe ∧
      doyOfDoe (365 * yoe + yoe / 4 - yoe / 100 + doy) = doy := by
  have hdoe0 : 0 ≤ 365 * yoe + yoe / 4 - yoe / 100 + doy := by omega
  have hdoe1 : 365 * yoe + yoe / 4 - yoe / 100 + doy ≤ 146096 := by omega
  have h1 := yoe_doy_spec (365 * yoe + yoe / 4 - yoe / 100 + doy) hdoe0 hdoe1
  have hy : yoeOfDoe (365 * yoe + yoe / 4 - yoe / 100 + doy) = yoe := by
    rcases le_total yoe (yoeOfDoe (365 * yoe + yoe / 4 - yoe / 100 + doy)) with h | h
    · have hg := qc_mono yoe (yoeOfDoe (365 * yoe + yoe / 4 - yoe / 100 + doy)) h
      omega
    · have hg := qc_mono (yoeOfDoe (365 * yoe + yoe / 4 - yoe / 100 + doy)) yoe h
      omega
  rw [hy] at h1
  exact ⟨hy, by omega⟩

/-- `12·year + month` in terms of the internal era decomposition. -/
theorem mi_formula (z : ℤ) :
    12 * (civilFromDays z).1 + (civilFromDays z).2.1 =
      4800 * ((z + 719468) / 146097) + 12 * yoeOfDoe ((z + 719468) % 146097) +
        (5 * doyOfDoe ((z + 719468) % 146097) + 2) / 153 + 2 := by
  have hd : 0 ≤ (z + 719468) % 146097 ∧ (z + 719468) % 146097 ≤ 146096 := by omega
  have h1 := yoe_doy_spec ((z + 719468) % 146097) hd.1 hd.2
  have h2 := mp_spec (doyOfDoe ((z + 719468) % 146097)) h1.2.2.1 h1.2.2.2.1
  simp only [civilFromDays]
  split_ifs <;> omega

theorem month_range (z : ℤ) :
    0 ≤ (civilFromDays z).2.1 ∧ (civilFromDays z).2.1 ≤ 11 ∧
      1 ≤ (civilFromDays z).2.2 ∧ (civilFromDays z).2.2 ≤ 31 := by
  have hd : 0 ≤ (z + 719468) % 146097 ∧ (z + 719468) % 146097 ≤ 146096 := by omega
  have h1 := yoe_doy_spec ((z + 719468) % 146097) hd.1 hd.2
  have h2 := mp_spec (doyOfDoe ((z + 719468) % 146097)) h1.2.2.1 h1.2.2.2.1
  simp only [civilFromDays]
  split_ifs <;> omega

set_option maxHeartbeats 1000000 in
theorem mi_step (z : ℤ) :
    12 * (civilFromDays z).1 + (civilFromDays z).2.1 ≤
      12 * (civilFromDays (z + 1)).1 + (civilFromDays (z + 1)).2.1 := by
  rw [mi_formula, mi_formula]
  have hd : 0 ≤ (z + 719468) % 146097 ∧ (z + 719468) % 146097 ≤ 146096 := by omega
  have hd2 : 0 ≤ (z + 1 + 719468) % 146097 ∧ (z + 1 + 719468) % 146097 ≤ 146096 := by omega
  have h1 := yoe_doy_spec ((z + 719468) % 146097) hd.1 hd.2
  have h1b := yoe_doy_spec ((z + 1 + 719468) % 146097) hd2.1 hd2.2
  have h2 := mp_spec (doyOfDoe ((z + 719468) % 146097)) h1.2.2.1 h1.2.2.2.1
  have h2b := mp_spec (doyOfDoe ((z + 1 + 719468) % 146097)) h1b.2.2.1 h1b.2.2.2.1
  have hera : ((z + 1 + 719468) / 146097 = (z + 719468) / 146097 ∧
      (z + 1 + 719468) % 146097 = (z + 719468) % 146097 + 1) ∨
      ((z + 1 + 719468) / 146097 = (z + 719468) / 146097 + 1 ∧
      (z + 719468) % 146097 = 146096 ∧ (z + 1 + 719468) % 146097 = 0) := by omega
  rcases hera with ⟨he, hm⟩ | ⟨he, hm1, hm2⟩
  · rw [he, hm]
    rw [hm] at h1b h2b
    rcases lt_trichotomy (yoeOfDoe ((z + 719468) % 146097))
        (yoeOfDoe ((z + 719468) % 146097 + 1)) with hlt | heq | hgt
    · omega
    · omega
    · have hg := qc_mono (yoeOfDoe ((z + 719468) % 146097 + 1))
        (yoeOfDoe ((z + 719468) % 146097)) (le_of_lt hgt)
      omega
  · rw [he]
    rw [hm1] at h1 h2
    rw [hm2] at h1b h2b
    have e1 : yoeOfDoe (146096 : ℤ) = 399 := by decide
    have e2 : doyOfDoe (146096 : ℤ) = 365 := by decide
    have e3 : yoeOfDoe (0 : ℤ) = 0 := by decide
    have e4 : doyOfDoe (0 : ℤ) = 0 := by decide
    rw [e1, e2] at h1
    rw [e2] at h2
    rw [e3, e4] at h1b
    rw [e4] at h2b
    rw [hm1, hm2, e1, e2, e3, e4]
    omega

/-- The month index `12·year + month` is monotone in the day number. -/
theorem mi_mono (z1 z2 : ℤ) (h : z1 ≤ z2) :
    12 * (civilFromDays z1).1 + (civilFromDays z1).2.1 ≤
      12 * (civilFromDays z2).1 + (civilFromDays z2).2.1 := by
  exact Int.le_induction
    (P := fun n => 12 * (civilFromDays z1).1 + (civilFromDays z1).2.1 ≤
      12 * (civilFromDays n).1 + (civilFromDays n).2.1)
    (le_refl _) (fun n _ ih => le_trans ih (mi_step n)) z2 h

/-- The civil year is monotone in the day number. -/
theorem year_mono (z1 z2 : ℤ) (h : z1 ≤ z2) :
    (civilFromDays z1).1 ≤ (civilFromDays z2).1 := by
  have h1 := mi_mono z1 z2 h
  have h2 := month_range z1
  have h3 := month_range z2
  omega

set_option maxHeartbeats 1000000 in
/-- January 1st of any year is mapped back to itself by the conversions. -/
theorem civil_jan1 (y : ℤ) :
    civilFromDays (daysFromCivil y 0 1) = (y, 0, 1) := by
  have harg : daysFromCivil y 0 1 + 719468 =
      (y - 1) / 400 * 146097 +
        (365 * ((y - 1) - (y - 1) / 400 * 400) + ((y - 1) - (y - 1) / 400 * 400) / 4 -
          ((y - 1) - (y - 1) / 400 * 400) / 100 + 306) := by
    simp only [daysFromCivil]
    norm_num
    ring
  have hy0 : 0 ≤ (y - 1) - (y - 1) / 400 * 400 := by omega
  have hy1 : (y - 1) - (y - 1) / 400 * 400 ≤ 399 := by omega
  have ha := uniq_a ((y - 1) / 400) ((y - 1) - (y - 1) / 400 * 400) 306 hy0 hy1 (by omega) (by omega)
  have hb := uniq_b ((y - 1) / 400) ((y - 1) - (y - 1) / 400 * 400) 306 hy0 hy1 (by omega) (by omega)
  have hc := uniq_c ((y - 1) - (y - 1) / 400 * 400) 306 hy0 hy1 (by omega) (by omega)
  simp only [civilFromDays, harg, ha, hb, hc.1, hc.2]
  norm_num

set_option maxHeartbeats 1000000 in
/-- The day before January 1st is December 31st of the previous year. -/
theorem civil_dec31 (y : ℤ) :
    civilFromDays (daysFromCivil y 0 1 - 1) = (y - 1, 11, 31) := by
  have harg : daysFromCivil y 0 1 - 1 + 719468 =
      (y - 1) / 400 * 146097 +
        (365 * ((y - 1) - (y - 1) / 400 * 400) + ((y - 1) - (y - 1) / 400 * 400) / 4 -
          ((y - 1) - (y - 1) / 400 * 400) / 100 + 305) := by
    simp only [daysFromCivil]
    norm_num
    ring_nf
  have hy0 : 0 ≤ (y - 1) - (y - 1) / 400 * 400 := by omega
  have hy1 : (y - 1) - (y - 1) / 400 * 400 ≤ 399 := by omega
  have ha := uniq_a ((y - 1) / 400) ((y - 1) - (y - 1) / 400 * 400) 305 hy0 hy1 (by omega) (by omega)
  have hb := uniq_b ((y - 1) / 400) ((y - 1) - (y - 1) / 400 * 400) 305 hy0 hy1 (by omega) (by omega)
  have hc := uniq_c ((y - 1) - (y - 1) / 400 * 400) 305 hy0 hy1 (by omega) (by omega)
  simp only [civilFromDays, harg, ha, hb, hc.1, hc.2]
  norm_num

/-! JS `Date` accessors and mutators over millisecond timestamps.
`jsDay`/`timeWithinDay` are the ECMAScript `Day(t)` and `TimeWithinDay(t)`
(floor division and positive remainder by 86400000 ms). -/

def jsDay (t : ℤ) : ℤ := t / 86400000

def timeWithinDay (t : ℤ) : ℤ := t % 86400000

/-- `Date.prototype.getFullYear` (local time = UTC in this model). -/
def getFullYear (t : ℤ) : ℤ := (civilFromDays (jsDay t)).1

/-- `Date.prototype.getMonth` (0..11). -/
def getMonth (t : ℤ) : ℤ := (civilFromDays (jsDay t)).2.1

/-- `Date.prototype.getDate` (day of month, 1..31). -/
def getDate (t : ℤ) : ℤ := (civilFromDays (jsDay t)).2.2

/-- `Date.prototype.setDate(x)` with an already-truncated integer argument:
`MakeDate(MakeDay(YearFromTime(t), MonthFromTime(t), x), TimeWithinDay(t))`. -/
def setDate (t x : ℤ) : ℤ :=
  daysFromCivil (getFullYear t) (getMonth t) x * 86400000 + timeWithinDay t

/-- `new Date(y, m, d)` at midnight local time, including the ECMAScript
`MakeFullYear` quirk mapping `0 ≤ y ≤ 99` to `1900 + y`. -/
def makeDate (y m d : ℤ) : ℤ :=
  (if 0 ≤ y ∧ y ≤ 99 then daysFromCivil (1900 + y) m d else daysFromCivil y m d) * 86400000

/-- `ToIntegerOrInfinity` on a finite rational: truncation toward zero. -/
def jsTrunc (q : ℚ) : ℤ := if q < 0 then -⌊-q⌋ else ⌊q⌋

theorem getDate_range (t : ℤ) : 1 ≤ getDate t ∧ getDate t ≤ 31 :=
  ⟨(month_range (jsDay t)).2.2.1, (month_range (jsDay t)).2.2.2⟩

/-- `setDate` shifts the timestamp by whole days: the calendar round trip. -/
theorem setDate_shift (t x : ℤ) : setDate t x = t + (x - getDate t) * 86400000 := by
  have h1 : daysFromCivil (getFullYear t) (getMonth t) x =
      daysFromCivil (getFullYear t) (getMonth t) (getDate t) + (x - getDate t) :=
    dfc_linear_in_d _ _ (getDate t) x
  have h2 : daysFromCivil (getFullYear t) (getMonth t) (getDate t) = jsDay t :=
    days_civil_roundtrip (jsDay t)
  have h3 : jsDay t * 86400000 + timeWithinDay t = t := by
    simp only [jsDay, timeWithinDay]
    omega
  simp only [setDate, h1, h2]
  ring_nf
  omega

example : getFullYear 1704067200000 = 2024 := by decide
example : getMonth 1704067200000 = 0 := by decide
example : getDate 1704067200000 = 1 := by decide

/-! IEEE-754 value model for the one division that may hit zero.  `JSNum`
carries the finite value exactly and the special values symbolically;
`jsDiv`, `jsMin`, `jsMax` follow `x / y`, `Math.min`, `Math.max`. -/

inductive JSNum where
  | num (q : ℚ)
  | posInf
  | negInf
  | nan
deriving DecidableEq, Repr

/-- An integer-valued JS number together with the IEEE sign of a zero result:
`negZero = true` records the value `-0` (and is only set when `val = 0`).
`Math.ceil` returns `-0` for arguments in `(-1, 0)`, and dividing a positive
number by `-0` gives `-∞`, so the sign of a zero unit count is observable
downstream of the clamp. -/
structure JSInt where
  val : ℤ
  negZero : Bool
deriving DecidableEq, Repr

/-- `Math.ceil` on an exact rational: the value is `⌈q⌉`, and the IEEE result
is `-0` exactly when the argument lies in `(-1, 0)` (an exact rational
argument is never itself `-0`; `Math.ceil` of `+0` is `+0`). -/
def jsCeil (q : ℚ) : JSInt :=
  { val := ⌈q⌉, negZero := decide (q < 0 ∧ -1 < q) }

/-- JS division of a finite rational by an integer-valued JS number, honouring
the sign of a zero divisor: positive divided by `+0` is `+∞`, positive divided
by `-0` is `-∞`. -/
def jsDiv (a : ℚ) (b : JSInt) : JSNum :=
  if b.val = 0 then
    if b.negZero then (if 0 < a then .negInf else if a < 0 then .posInf else .nan)
    else (if 0 < a then .posInf else if a < 0 then .negInf else .nan)
  else .num (a / (b.val : ℚ))

/-- `Math.min` on the value model. -/
def jsMin : JSNum → JSNum → JSNum
  | .nan, _ => .nan
  | _, .nan => .nan
  | .negInf, _ => .negInf
  | _, .negInf => .negInf
  | .posInf, b => b
  | a, .posInf => a
  | .num a, .num b => .num (min a b)

/-- `Math.max` on the value model. -/
def jsMax : JSNum → JSNum → JSNum
  | .nan, _ => .nan
  | _, .nan => .nan
  | .posInf, _ => .posInf
  | _, .posInf => .posInf
  | .negInf, b => b
  | a, .negInf => a
  | .num a, .num b => .num (max a b)

/-- The finite value of a `JSNum` (junk value 0 on the special values). -/
def JSNum.toQ : JSNum → ℚ
  | .num q => q
  | _ => 0

/-! Data model of the component (gantt-view.component.ts).
The index-signature extra properties of `GanttTask` and the `dependencies`
array are never read by the engine and are omitted. -/

inductive GanttRelationshipType where
  | FS
  | SS
  | FF
  | SF
deriving DecidableEq, Repr

structure GanttTask where
  id : String
  name : String
  start : ℤ
  «end» : ℤ
  progress : Option ℚ := none
  color : Option String := none
deriving DecidableEq, Repr

structure GanttRelationship where
  id : String
  sourceId : String
  targetId : String
  type : GanttRelationshipType
  lag : Option ℚ := none
deriving DecidableEq, Repr

inductive ViewMode where
  | day
  | week
  | month
  | year
deriving DecidableEq, Repr

structure UnitWidthConfig where
  min : ℚ
  max : ℚ
  optimal : ℚ
deriving DecidableEq, Repr

/-- `UNIT_WIDTHS` table. -/
def UNIT_WIDTHS : ViewMode → UnitWidthConfig
  | .day => { min := 20, max := 40, optimal := 30 }
  | .week => { min := 60, max := 120, optimal := 80 }
  | .month => { min := 80, max := 150, optimal := 100 }
  | .year => { min := 150, max := 300, optimal := 200 }

/-- A `Path2D` produced by `createRelationshipPath`: one `moveTo` followed by
one `bezierCurveTo`. -/
structure BezierPath where
  x0 : ℚ
  y0 : ℚ
  c1x : ℚ
  c1y : ℚ
  c2x : ℚ
  c2y : ℚ
  x1 : ℚ
  y1 : ℚ
deriving DecidableEq, Repr

def createRelationshipPath (fromX fromY toX toY : ℚ) : BezierPath :=
  { x0 := fromX, y0 := fromY
    c1x := (fromX + toX) / 2, c1y := fromY
    c2x := (fromX + toX) / 2, c2y := toY
    x1 := toX, y1 := toY }

structure RelationshipLine where
  id : String
  fromX : ℚ
  fromY : ℚ
  toX : ℚ
  toY : ℚ
  type : GanttRelationshipType
  sourceTask : GanttTask
  targetTask : GanttTask
  lag : Option ℚ
  path : BezierPath
deriving DecidableEq, Repr

/-- The component state: `@Input` properties, the cached derived state
(`startDate`, `endDate`, `relationshipLines`), the hover/tooltip state, the
canvas width (a DOM `unsigned long`, hence `ℕ`), the cursor style, and an
instrumentation counter incremented by every `drawChart` repaint. -/
structure GanttView where
  tasks : List GanttTask := []
  relationships : List GanttRelationship := []
  viewMode : ViewMode := .day
  rowHeight : ℚ := 40
  barHeight : ℚ := 20
  showTooltips : Bool := true
  showRelationships : Bool := true
  canvasWidth : ℕ := 800
  startDate : ℤ := 0
  endDate : ℤ := 0
  relationshipLines : List RelationshipLine := []
  hoveredRelationship : Option RelationshipLine := none
  hoveredTask : Option GanttTask := none
  tooltipVisible : Bool := false
  relTooltipVisible : Bool := false
  cursor : String := "default"
  drawCount : ℕ := 0
deriving DecidableEq, Repr

/-- `private headerHeight = 100` (never mutated). -/
def headerHeight : ℚ := 100

/-! Component operations, translated from gantt-view.component.ts. -/

/-- `calculateCanvasWidth`: `this.canvasRef?.nativeElement.width || 800`.
A missing canvas (`undefined`) and a zero width are both falsy and yield 800;
the DOM width is a non-negative integer. -/
def calculateCanvasWidth (s : GanttView) : ℚ :=
  if s.canvasWidth = 0 then 800 else (s.canvasWidth : ℚ)

/-- `getTotalDays`: `Math.ceil((endDate - startDate) / 86400000)`.  The
result carries the IEEE sign of zero: a range reversed by less than a day
makes `Math.ceil` return `-0`. -/
def getTotalDays (s : GanttView) : JSInt :=
  jsCeil (((s.endDate - s.startDate : ℤ) : ℚ) / (1000 * 60 * 60 * 24))

/-- `getTotalUnits` per view mode.  Day and week preserve a `-0` day count
(`-0 / 7 = -0` and `Math.ceil` keeps `-0`, and likewise returns `-0` for a
quotient in `(-1, 0)`); the month/year counts are exact integer arithmetic on
calendar components, whose zero result is always `+0`. -/
def getTotalUnits (s : GanttView) : JSInt :=
  match s.viewMode with
  | .day => getTotalDays s
  | .week =>
      if (getTotalDays s).negZero then { val := 0, negZero := true }
      else jsCeil (((getTotalDays s).val : ℚ) / 7)
  | .month =>
      { val := (getFullYear s.endDate - getFullYear s.startDate) * 12 +
          (getMonth s.endDate - getMonth s.startDate) + 1, negZero := false }
  | .year =>
      { val := getFullYear s.endDate - getFullYear s.startDate + 1, negZero := false }

/-- `getOptimalUnitWidth`:
`Math.max(config.min, Math.min(config.max, calculateCanvasWidth() / totalUnits))`,
with the division carried out in IEEE semantics (`JSNum`). -/
def getOptimalUnitWidth (s : GanttView) : JSNum :=
  jsMax (.num (UNIT_WIDTHS s.viewMode).min)
    (jsMin (.num (UNIT_WIDTHS s.viewMode).max)
      (jsDiv (calculateCanvasWidth s) (getTotalUnits s)))

/-- The resolved (finite) unit width used by the drawing code. -/
def unitWidthQ (s : GanttView) : ℚ := (getOptimalUnitWidth s).toQ

/-- `getXPositionForDate`. -/
def getXPositionForDate (s : GanttView) (date : ℤ) : ℚ :=
  let daysDiff : ℚ := ((date - s.startDate : ℤ) : ℚ) / (1000 * 60 * 60 * 24)
  let unitWidth := unitWidthQ s
  match s.viewMode with
  | .day => daysDiff * unitWidth
  | .week => daysDiff / 7 * unitWidth
  | .month =>
      (((getFullYear date - getFullYear s.startDate) * 12 +
        (getMonth date - getMonth s.startDate) : ℤ) : ℚ) * unitWidth
  | .year => ((getFullYear date - getFullYear s.startDate : ℤ) : ℚ) * unitWidth

/-- `Math.min(...values)` over a non-empty spread list (0 is never used: the
caller guards non-emptiness). -/
def listMin : List ℤ → ℤ
  | [] => 0
  | x :: xs => xs.foldl min x

/-- `Math.max(...values)` over a non-empty spread list. -/
def listMax : List ℤ → ℤ
  | [] => 0
  | x :: xs => xs.foldl max x

/-- `initializeDateRange`, with the current wall-clock time `now` passed in
for the empty-task fallback (`new Date()`).  In the non-empty branch the
padding `getTotalDays() * 0.05` is a fraction of a day in general; it reaches
`setDate` through JS `ToIntegerOrInfinity`, i.e. truncation toward zero
(`jsTrunc`). -/
def initializeDateRange (now : ℤ) (s : GanttView) : GanttView :=
  if s.tasks.isEmpty then
    { s with
      startDate := makeDate (getFullYear now) 0 1
      endDate := makeDate (getFullYear now + 1) 0 1 }
  else
    let starts := s.tasks.map fun t => t.start
    let ends := s.tasks.map fun t => t.«end»
    let s1 := { s with startDate := listMin starts, endDate := listMax ends }
    let paddingDays : ℚ := ((getTotalDays s1).val : ℚ) * (5 / 100)
    { s1 with
      startDate := setDate s1.startDate (jsTrunc ((getDate s1.startDate : ℚ) - paddingDays))
      endDate := setDate s1.endDate (jsTrunc ((getDate s1.endDate : ℚ) + paddingDays)) }

/-- `getTaskAtPosition`. -/
def getTaskAtPosition (s : GanttView) (x y : ℚ) : Option GanttTask :=
  if y < headerHeight then none
  else
    let rowIndex : ℤ := ⌊(y - headerHeight) / s.rowHeight⌋
    if rowIndex < 0 then none
    else
      match s.tasks.get? rowIndex.toNat with
      | none => none
      | some task =>
          if getXPositionForDate s task.start ≤ x ∧ x ≤ getXPositionForDate s task.«end»
          then some task else none

/-- Name truncation in `drawTasks`:
`task.name.length > 15 ? task.name.substring(0, 15) + '...' : task.name`. -/
def truncatedTaskName (name : String) : String :=
  if name.length > 15 then name.take 15 ++ "..." else name

/-- The label `drawTasks` paints on a task bar, if any: drawn only when the
bar width `Math.max(endX - startX, 2)` exceeds 60 pixels. -/
def drawnTaskName (s : GanttView) (task : GanttTask) : Option String :=
  let startX := getXPositionForDate s task.start
  let endX := getXPositionForDate s task.«end»
  let width := max (endX - startX) 2
  if width > 60 then some (truncatedTaskName task.name) else none

/-- `new Map(tasks.map(t => [t.id, t])).get(i)`: later list entries overwrite
earlier ones, so lookup returns the last task with the given id. -/
def taskMapGet (tasks : List GanttTask) (i : String) : Option GanttTask :=
  match tasks with
  | [] => none
  | t :: ts =>
      match taskMapGet ts i with
      | some r => some r
      | none => if t.id == i then some t else none

/-- The body of the `forEach` in `calculateRelationshipLines` for one
relationship: resolve both endpoints, compute the connector endpoints by
relationship kind, apply the (truthy) lag, and build the path. -/
def lineForRel (s : GanttView) (rel : GanttRelationship) : Option RelationshipLine :=
  match taskMapGet s.tasks rel.sourceId, taskMapGet s.tasks rel.targetId with
  | some sourceTask, some targetTask =>
      match s.tasks.findIdx? (fun t => t.id == sourceTask.id),
          s.tasks.findIdx? (fun t => t.id == targetTask.id) with
      | some sourceIndex, some targetIndex =>
          let fromY := headerHeight + (sourceIndex : ℚ) * s.rowHeight + s.rowHeight / 2
          let toY := headerHeight + (targetIndex : ℚ) * s.rowHeight + s.rowHeight / 2
          let fromX :=
            match rel.type with
            | .FS => getXPositionForDate s sourceTask.«end»
            | .SS => getXPositionForDate s sourceTask.start
            | .FF => getXPositionForDate s sourceTask.«end»
            | .SF => getXPositionForDate s sourceTask.start
          let toX0 :=
            match rel.type with
            | .FS => getXPositionForDate s targetTask.start
            | .SS => getXPositionForDate s targetTask.start
            | .FF => getXPositionForDate s targetTask.«end»
            | .SF => getXPositionForDate s targetTask.«end»
          let toX :=
            match rel.lag with
            | none => toX0
            | some lag => if lag = 0 then toX0 else toX0 + lag * unitWidthQ s
          some
            { id := rel.id
              fromX := fromX, fromY := fromY, toX := toX, toY := toY
              type := rel.type
              sourceTask := sourceTask, targetTask := targetTask
              lag := rel.lag
              path := createRelationshipPath fromX fromY toX toY }
      | _, _ => none
  | _, _ => none

/-- `calculateRelationshipLines`: relationships with unresolvable endpoints
are skipped (`forEach` with early `return`), the rest each push one line. -/
def calculateRelationshipLines (s : GanttView) : List RelationshipLine :=
  s.relationships.filterMap (lineForRel s)

/-- `drawChart`: full repaint; when relationships are enabled and non-empty,
`drawRelationships` refreshes the cached `relationshipLines`. -/
def drawChart (s : GanttView) : GanttView :=
  let s1 := { s with drawCount := s.drawCount + 1 }
  if s1.showRelationships then
    if s1.relationships.isEmpty then s1
    else { s1 with relationshipLines := calculateRelationshipLines s1 }
  else s1

/-- `onMouseLeave`: hide both tooltips, reset the cursor.  The hover fields
are not touched. -/
def onMouseLeave (s : GanttView) : GanttView :=
  { s with tooltipVisible := false, relTooltipVisible := false, cursor := "default" }

/-- `showTooltip` (task tooltip): early return when tooltips are off or the
same task is already hovered; otherwise record the task and show the tooltip. -/
def showTooltip (s : GanttView) (task : GanttTask) : GanttView :=
  if s.showTooltips = false ∨ s.hoveredTask = some task then s
  else { s with hoveredTask := some task, tooltipVisible := true }

/-- `handleTaskHover`. -/
def handleTaskHover (s : GanttView) (x y : ℚ) : GanttView :=
  if s.showTooltips = false then s
  else
    match getTaskAtPosition s x y with
    | some task => { showTooltip s task with cursor := "pointer" }
    | none => { s with tooltipVisible := false, cursor := "default" }

/-- `handleRelationshipHover`.  The geometric stroke test
`ctx.isPointInStroke(path, x, y)` is abstracted by the oracle `hit`. -/
def handleRelationshipHover (hit : BezierPath → ℚ → ℚ → Bool) (s : GanttView) (x y : ℚ) :
    GanttView :=
  if s.showRelationships = false ∨ s.showTooltips = false then s
  else
    match s.relationshipLines.find? (fun line => hit line.path x y) with
    | some hovered =>
        let s1 := drawChart { s with hoveredRelationship := some hovered }
        { s1 with relTooltipVisible := true, cursor := "pointer" }
    | none =>
        let s1 :=
          if s.hoveredRelationship.isSome then drawChart { s with hoveredRelationship := none }
          else s
        { s1 with relTooltipVisible := false }

/-- `onMouseMove`: relationship hover handling, then task hover handling. -/
def onMouseMove (hit : BezierPath → ℚ → ℚ → Bool) (s : GanttView) (x y : ℚ) : GanttView :=
  handleTaskHover (handleRelationshipHover hit s x y) x y

/-! Concrete fixtures used by counterexamples and witnesses. -/

def taskA : GanttTask := { id := "A", name := "Task A", start := 86400000, «end» := 259200000 }

def taskB : GanttTask := { id := "B", name := "Task B", start := 432000000, «end» := 691200000 }

def relFS2 : GanttRelationship :=
  { id := "r1", sourceId := "A", targetId := "B", type := .FS, lag := some 2 }

/-- Day view over 10 days on a 300px canvas: the resolved unit width is 30. -/
def s6 : GanttView :=
  { tasks := [taskA, taskB], relationships := [relFS2], viewMode := .day,
    canvasWidth := 300, startDate := 0, endDate := 864000000 }

/-! Spread `Math.min`/`Math.max` over a non-empty list: order lemmas. -/

theorem foldl_min_le_init (l : List ℤ) (a : ℤ) : l.foldl min a ≤ a := by
  induction l generalizing a with
  | nil => exact le_refl a
  | cons x xs ih => exact le_trans (ih (min a x)) (min_le_left a x)

theorem foldl_min_le_mem (l : List ℤ) (a b : ℤ) (hb : b ∈ l) : l.foldl min a ≤ b := by
  induction l generalizing a with
  | nil => cases hb
  | cons x xs ih =>
      rcases List.mem_cons.mp hb with rfl | hmem
      · exact le_trans (foldl_min_le_init xs (min a b)) (min_le_right a b)
      · exact ih (min a x) hmem

theorem init_le_foldl_max (l : List ℤ) (a : ℤ) : a ≤ l.foldl max a := by
  induction l generalizing a with
  | nil => exact le_refl a
  | cons x xs ih => exact le_trans (le_max_left a x) (ih (max a x))

theorem mem_le_foldl_max (l : List ℤ) (a b : ℤ) (hb : b ∈ l) : b ≤ l.foldl max a := by
  induction l generalizing a with
  | nil => cases hb
  | cons x xs ih =>
      rcases List.mem_cons.mp hb with rfl | hmem
      · exact le_trans (le_max_right a b) (init_le_foldl_max xs (max a b))
      · exact ih (max a x) hmem

theorem listMin_le (l : List ℤ) (b : ℤ) (hb : b ∈ l) : listMin l ≤ b := by
  cases l with
  | nil => cases hb
  | cons x xs =>
      simp only [listMin]
      rcases List.mem_cons.mp hb with rfl | hmem
      · exact foldl_min_le_init xs b
      · exact foldl_min_le_mem xs x b hmem

theorem le_listMax (l : List ℤ) (b : ℤ) (hb : b ∈ l) : b ≤ listMax l := by
  cases l with
  | nil => cases hb
  | cons x xs =>
      simp only [listMax]
      rcases List.mem_cons.mp hb with rfl | hmem
      · exact init_le_foldl_max xs b
      · exact mem_le_foldl_max xs x b hmem

/-! Unit-width clamping: shared characterisation. -/

theorem unit_widths_sane (m : ViewMode) :
    0 < (UNIT_WIDTHS m).min ∧ (UNIT_WIDTHS m).min ≤ (UNIT_WIDTHS m).max := by
  cases m <;> exact ⟨by norm_num [UNIT_WIDTHS], by norm_num [UNIT_WIDTHS]⟩

theorem calculateCanvasWidth_pos (s : GanttView) : 0 < calculateCanvasWidth s := by
  unfold calculateCanvasWidth
  split
  · norm_num
  · exact_mod_cast Nat.pos_of_ne_zero (by assumption)

/-- The optimal unit width is always a finite number inside the mode's
`[min, max]` interval.  A zero unit count is not guarded, and the IEEE sign
of the zero decides the outcome: a positive zero makes the division produce
`+∞`, which the clamp maps to the mode's `max`; the `-0` that `Math.ceil`
returns for a range reversed by under a day makes it produce `-∞`, which the
clamp maps to the mode's `min`. -/
theorem optimalUnitWidth_spec (s : GanttView) :
    getOptimalUnitWidth s = JSNum.num (unitWidthQ s) ∧
      (UNIT_WIDTHS s.viewMode).min ≤ unitWidthQ s ∧
      unitWidthQ s ≤ (UNIT_WIDTHS s.viewMode).max ∧
      ((getTotalUnits s).val = 0 → (getTotalUnits s).negZero = false →
        unitWidthQ s = (UNIT_WIDTHS s.viewMode).max) ∧
      ((getTotalUnits s).val = 0 → (getTotalUnits s).negZero = true →
        unitWidthQ s = (UNIT_WIDTHS s.viewMode).min) := by
  have hw := calculateCanvasWidth_pos s
  have hs := unit_widths_sane s.viewMode
  by_cases ht : (getTotalUnits s).val = 0
  · by_cases hz : (getTotalUnits s).negZero = true
    · have hg : getOptimalUnitWidth s = JSNum.num (UNIT_WIDTHS s.viewMode).min := by
        simp only [getOptimalUnitWidth, jsDiv]
        rw [if_pos ht, if_pos hz, if_pos hw]
        simp only [jsMin, jsMax]
      have hq : unitWidthQ s = (UNIT_WIDTHS s.viewMode).min := by
        rw [unitWidthQ, hg]
        rfl
      exact ⟨by rw [hg, hq], by rw [hq], by rw [hq]; exact hs.2,
        fun _ hf => absurd hz (by rw [hf]; exact Bool.false_ne_true),
        fun _ _ => hq⟩
    · have hz' : (getTotalUnits s).negZero = false := by
        revert hz
        cases (getTotalUnits s).negZero <;> simp
      have hg : getOptimalUnitWidth s = JSNum.num (UNIT_WIDTHS s.viewMode).max := by
        simp only [getOptimalUnitWidth, jsDiv]
        rw [if_pos ht, hz', if_neg Bool.false_ne_true, if_pos hw]
        simp only [jsMin, jsMax]
        simp [max_eq_right hs.2]
      have hq : unitWidthQ s = (UNIT_WIDTHS s.viewMode).max := by
        rw [unitWidthQ, hg]
        rfl
      exact ⟨by rw [hg, hq], by rw [hq]; exact hs.2, by rw [hq],
        fun _ _ => hq,
        fun _ hf => absurd hf (by rw [hz']; exact Bool.false_ne_true)⟩
  · have hg : getOptimalUnitWidth s =
        JSNum.num (max (UNIT_WIDTHS s.viewMode).min
          (min (UNIT_WIDTHS s.viewMode).max
            (calculateCanvasWidth s / (((getTotalUnits s).val : ℤ) : ℚ)))) := by
      simp only [getOptimalUnitWidth, jsDiv]
      rw [if_neg ht]
      simp only [jsMin, jsMax]
    have hq : unitWidthQ s = max (UNIT_WIDTHS s.viewMode).min
        (min (UNIT_WIDTHS s.viewMode).max
          (calculateCanvasWidth s / (((getTotalUnits s).val : ℤ) : ℚ))) := by
      rw [unitWidthQ, hg]
      rfl
    refine ⟨by rw [hg, hq], ?_, ?_, fun h0 _ => absurd h0 ht, fun h0 _ => absurd h0 ht⟩
    · rw [hq]
      exact le_max_left _ _
    · rw [hq]
      exact max_le hs.2 (min_le_left _ _)

/-! Claim C2: unit-width clamping.  The claim's "zero units -> max width"
half is refuted: the division is not guarded, and a unit count of `-0`
(produced by `Math.ceil` on a range reversed by less than one day) yields
`-∞`, which the clamp maps to the mode's `min`.  The counterexample and the
witness for the `-0` branch live after the `initializeDateRange` lemmas. -/

/-- C2 amended: for every view mode, canvas width and task set the resolved
unit width is a finite number within the mode's `[min, max]` bounds from
`UNIT_WIDTHS`.  The division by a zero unit count is not guarded: a positive
zero (e.g. a zero-length range) gives `+∞` which the clamp maps to the
mode's `max`, but the `-0` that `Math.ceil` returns for a range reversed by
under a day gives `-∞`, which the clamp maps to the mode's `min`, not its
`max`. -/
theorem C2_amended_unit_width (s : GanttView) :
    getOptimalUnitWidth s = JSNum.num (unitWidthQ s) ∧
      (UNIT_WIDTHS s.viewMode).min ≤ unitWidthQ s ∧
      unitWidthQ s ≤ (UNIT_WIDTHS s.viewMode).max ∧
      ((getTotalUnits s).val = 0 → (getTotalUnits s).negZero = false →
        getOptimalUnitWidth s = JSNum.num (UNIT_WIDTHS s.viewMode).max) ∧
      ((getTotalUnits s).val = 0 → (getTotalUnits s).negZero = true →
        getOptimalUnitWidth s = JSNum.num (UNIT_WIDTHS s.viewMode).min) := by
  have h := optimalUnitWidth_spec s
  exact ⟨h.1, h.2.1, h.2.2.1,
    fun h0 h1 => by rw [h.1, h.2.2.2.1 h0 h1],
    fun h0 h1 => by rw [h.1, h.2.2.2.2 h0 h1]⟩

/-- A state with a degenerate (zero-length) date range in day view. -/
def sC2 : GanttView := { startDate := 42, endDate := 42 }

theorem sC2_totalUnits : getTotalUnits sC2 = { val := 0, negZero := false } := by
  norm_num [getTotalUnits, getTotalDays, jsCeil, sC2]

/-! Claim C4: the pointer-leave handler. -/

/-- A relationship line as cached by a previous draw pass. -/
def lineC4 : RelationshipLine :=
  { id := "r1", fromX := 90, fromY := 120, toX := 150, toY := 160, type := .FS,
    sourceTask := taskA, targetTask := taskB, lag := none,
    path := createRelationshipPath 90 120 150 160 }

/-- A state captured while a relationship and a task are both hovered. -/
def sC4 : GanttView :=
  { tasks := [taskA, taskB], hoveredRelationship := some lineC4,
    hoveredTask := some taskA, tooltipVisible := true, relTooltipVisible := true,
    cursor := "pointer" }

/-- C4 counterexample: after `onMouseLeave` the hover channels are NOT
cleared — both the hovered relationship and the hovered task survive the
leave, contradicting the claim that both are null afterwards. -/
theorem C4_counterexample :
    (onMouseLeave sC4).hoveredRelationship ≠ none ∧
      (onMouseLeave sC4).hoveredTask ≠ none := by decide

/-- C4 amended: the pointer-leave handler hides both tooltips and resets the
cursor to default, but leaves both hover channels (and everything else)
unchanged; the stale hover state is only corrected by the next pointer-move
hit test. -/
theorem C4_amended_mouse_leave (s : GanttView) :
    (onMouseLeave s).tooltipVisible = false ∧
      (onMouseLeave s).relTooltipVisible = false ∧
      (onMouseLeave s).cursor = "default" ∧
      (onMouseLeave s).hoveredTask = s.hoveredTask ∧
      (onMouseLeave s).hoveredRelationship = s.hoveredRelationship ∧
      (onMouseLeave s).tasks = s.tasks ∧
      (onMouseLeave s).relationshipLines = s.relationshipLines ∧
      (onMouseLeave s).drawCount = s.drawCount :=
  ⟨rfl, rfl, rfl, rfl, rfl, rfl, rfl, rfl⟩

/-! Claim C10: pointer move with tooltips disabled. -/

/-- C10: when `showTooltips` is false the pointer-move handler is a complete
no-op for every hit-test oracle, every state and every pointer position: no
hover state change, no tooltip change, no redraw (the draw counter is part of
the state), no cursor change. -/
theorem C10_tooltips_disabled_noop (hit : BezierPath → ℚ → ℚ → Bool) (s : GanttView)
    (x y : ℚ) (h : s.showTooltips = false) :
    onMouseMove hit s x y = s := by
  simp [onMouseMove, handleRelationshipHover, handleTaskHover, h]

def sC10 : GanttView := { tasks := [taskA], showTooltips := false }

theorem C10_witness :
    sC10.showTooltips = false ∧ onMouseMove (fun _ _ _ => true) sC10 3 5 = sC10 :=
  ⟨rfl, C10_tooltips_disabled_noop (fun _ _ _ => true) sC10 3 5 rfl⟩

/-! Claim C9: task-name truncation. -/

/-- The 31-character task name of the scenario, on a geometry whose bar is
120 pixels wide (day view, unit width 30, 4-day bar). -/
def task9 : GanttTask :=
  { id := "C", name := "Implement authentication module", start := 86400000, «end» := 432000000 }

def s9 : GanttView :=
  { tasks := [task9], viewMode := .day, canvasWidth := 300, startDate := 0,
    endDate := 864000000 }

theorem s9_bar_width :
    max (getXPositionForDate s9 task9.«end» - getXPositionForDate s9 task9.start) 2 = 120 := by
  norm_num [getXPositionForDate, unitWidthQ, getOptimalUnitWidth, getTotalUnits, getTotalDays, jsCeil,
    calculateCanvasWidth, s9, task9, UNIT_WIDTHS, jsDiv, jsMin, jsMax, JSNum.toQ]

theorem drawnTaskName_s9 : drawnTaskName s9 task9 = some "Implement authe..." := by
  rw [drawnTaskName]
  rw [s9_bar_width]
  norm_num [truncatedTaskName, task9]
  decide

/-- C9 counterexample: the scenario's 31-character name does NOT render as
`"Implement autho..."` — the 15th character of the name is `e`, not `o`. -/
theorem C9_counterexample :
    drawnTaskName s9 task9 ≠ some "Implement autho..." := by
  rw [drawnTaskName_s9]
  decide

/-- C9 amended: when the bar is wider than 60 pixels, a name longer than 15
characters renders as its first 15 characters followed by an ellipsis; in
particular the 31-character name `"Implement authentication module"` renders
as `"Implement authe..."`. -/
theorem C9_amended_truncation :
    (∀ (s : GanttView) (task : GanttTask),
      60 < max (getXPositionForDate s task.«end» - getXPositionForDate s task.start) 2 →
      15 < task.name.length →
      drawnTaskName s task = some (task.name.take 15 ++ "...")) ∧
    task9.name.length = 31 ∧
    drawnTaskName s9 task9 = some "Implement authe..." := by
  refine ⟨fun s task hw hl => ?_, by decide, drawnTaskName_s9⟩
  simp only [drawnTaskName, truncatedTaskName, if_pos hw, if_pos hl]

theorem C9_witness :
    (60 < max (getXPositionForDate s9 task9.«end» - getXPositionForDate s9 task9.start) 2 ∧
      15 < task9.name.length) ∧
    drawnTaskName s9 task9 = some (task9.name.take 15 ++ "...") :=
  ⟨⟨by rw [s9_bar_width]; norm_num, by decide⟩,
    C9_amended_truncation.1 s9 task9 (by rw [s9_bar_width]; norm_num) (by decide)⟩

/-! Claim C8: monotonicity of the date-to-pixel mapping. -/

theorem unitWidthQ_pos (s : GanttView) : 0 < unitWidthQ s :=
  lt_of_lt_of_le (unit_widths_sane s.viewMode).1 (optimalUnitWidth_spec s).2.1

/-- C8: for a fixed state (view mode and computed date range),
`getXPositionForDate` is monotonically non-decreasing in the date, in each of
the day, week, month and year view modes. -/
theorem C8_xForDate_monotone (s : GanttView) (d1 d2 : ℤ) (h : d1 ≤ d2) :
    getXPositionForDate s d1 ≤ getXPositionForDate s d2 := by
  have huw := unitWidthQ_pos s
  have hdd : ((d1 - s.startDate : ℤ) : ℚ) / (1000 * 60 * 60 * 24) ≤
      ((d2 - s.startDate : ℤ) : ℚ) / (1000 * 60 * 60 * 24) := by
    apply (div_le_div_right (by norm_num)).mpr
    exact_mod_cast sub_le_sub_right h s.startDate
  have hz : jsDay d1 ≤ jsDay d2 := Int.ediv_le_ediv (by norm_num) h
  cases hv : s.viewMode with
  | day =>
      simp only [getXPositionForDate, hv]
      exact mul_le_mul_of_nonneg_right hdd huw.le
  | week =>
      simp only [getXPositionForDate, hv]
      exact mul_le_mul_of_nonneg_right ((div_le_div_right (by norm_num)).mpr hdd) huw.le
  | month =>
      simp only [getXPositionForDate, hv]
      apply mul_le_mul_of_nonneg_right _ huw.le
      have hmi := mi_mono (jsDay d1) (jsDay d2) hz
      have : ((getFullYear d1 - getFullYear s.startDate) * 12 +
          (getMonth d1 - getMonth s.startDate) : ℤ) ≤
          ((getFullYear d2 - getFullYear s.startDate) * 12 +
            (getMonth d2 - getMonth s.startDate) : ℤ) := by
        simp only [getFullYear, getMonth]
        omega
      exact_mod_cast this
  | year =>
      simp only [getXPositionForDate, hv]
      apply mul_le_mul_of_nonneg_right _ huw.le
      have hy := year_mono (jsDay d1) (jsDay d2) hz
      have : (getFullYear d1 - getFullYear s.startDate : ℤ) ≤
          (getFullYear d2 - getFullYear s.startDate : ℤ) := by
        simp only [getFullYear]
        omega
      exact_mod_cast this

theorem C8_witness :
    (0 : ℤ) ≤ 86400000 ∧ getXPositionForDate s6 0 ≤ getXPositionForDate s6 86400000 :=
  ⟨by decide, C8_xForDate_monotone s6 0 86400000 (by decide)⟩

/-! Claim C5: round trip of coordinate mapping and task hit-testing. -/

/-- C5: for the task at row `i`, every `x` in the closed pixel interval of the
task's bar and every `y` in row `i`'s vertical band, the hit test returns
exactly that task. -/
theorem C5_hit_test_roundtrip (s : GanttView) (i : ℕ) (task : GanttTask) (x y : ℚ)
    (hrh : 0 < s.rowHeight)
    (hi : s.tasks.get? i = some task)
    (hy1 : headerHeight + (i : ℚ) * s.rowHeight ≤ y)
    (hy2 : y < headerHeight + ((i : ℚ) + 1) * s.rowHeight)
    (hx1 : getXPositionForDate s task.start ≤ x)
    (hx2 : x ≤ getXPositionForDate s task.«end») :
    getTaskAtPosition s x y = some task := by
  have hge : ¬ y < headerHeight := by
    have h0 : (0 : ℚ) ≤ (i : ℚ) * s.rowHeight := mul_nonneg (Nat.cast_nonneg i) hrh.le
    push_neg
    linarith
  have hfl : ⌊(y - headerHeight) / s.rowHeight⌋ = (i : ℤ) := by
    rw [Int.floor_eq_iff]
    constructor
    · rw [le_div_iff hrh]
      push_cast
      linarith
    · rw [div_lt_iff hrh]
      push_cast
      linarith
  have hnn : ¬ ((i : ℤ) < 0) := by omega
  simp only [getTaskAtPosition, if_neg hge, hfl, if_neg hnn, Int.toNat_natCast, hi]
  rw [if_pos ⟨hx1, hx2⟩]

theorem C5_witness :
    ((0 : ℚ) < s6.rowHeight ∧ s6.tasks.get? 0 = some taskA ∧
      headerHeight + ((0 : ℕ) : ℚ) * s6.rowHeight ≤ 120 ∧
      (120 : ℚ) < headerHeight + (((0 : ℕ) : ℚ) + 1) * s6.rowHeight ∧
      getXPositionForDate s6 taskA.start ≤ 50 ∧
      (50 : ℚ) ≤ getXPositionForDate s6 taskA.«end») ∧
    getTaskAtPosition s6 50 120 = some taskA :=
  ⟨⟨by norm_num [s6], rfl, by norm_num [s6, headerHeight], by norm_num [s6, headerHeight],
      by norm_num [getXPositionForDate, unitWidthQ, getOptimalUnitWidth, getTotalUnits,
        getTotalDays, jsCeil, calculateCanvasWidth, s6, taskA, UNIT_WIDTHS, jsDiv, jsMin, jsMax,
        JSNum.toQ],
      by norm_num [getXPositionForDate, unitWidthQ, getOptimalUnitWidth, getTotalUnits,
        getTotalDays, jsCeil, calculateCanvasWidth, s6, taskA, UNIT_WIDTHS, jsDiv, jsMin, jsMax,
        JSNum.toQ]⟩,
    C5_hit_test_roundtrip s6 0 taskA 50 120 (by norm_num [s6]) rfl
      (by norm_num [s6, headerHeight]) (by norm_num [s6, headerHeight])
      (by norm_num [getXPositionForDate, unitWidthQ, getOptimalUnitWidth, getTotalUnits,
        getTotalDays, jsCeil, calculateCanvasWidth, s6, taskA, UNIT_WIDTHS, jsDiv, jsMin, jsMax,
        JSNum.toQ])
      (by norm_num [getXPositionForDate, unitWidthQ, getOptimalUnitWidth, getTotalUnits,
        getTotalDays, jsCeil, calculateCanvasWidth, s6, taskA, UNIT_WIDTHS, jsDiv, jsMin, jsMax,
        JSNum.toQ])⟩

/-! Claim C6: lag shifts only the target endpoint. -/

/-- C6: a relationship's lag shifts only `toX`, by exactly
`lag * optimalUnitWidth` pixels, leaving `fromX`, `fromY` and `toY` unchanged
(a zero or absent lag is falsy and adds nothing, which is the same shift of
zero); in particular the Finish-to-Start relationship with lag 2 of the
fixture (day view, unit width 30) has `toX` exactly `2·30 = 60` pixels
further right than the same relationship without lag. -/
theorem C6_lag_shifts_only_toX :
    (∀ (s : GanttView) (rel : GanttRelationship) (l : ℚ), rel.lag = some l →
      ((lineForRel s rel).map fun line => line.toX) =
        ((lineForRel s { rel with lag := none }).map fun line => line.toX + l * unitWidthQ s) ∧
      ((lineForRel s rel).map fun line => line.fromX) =
        ((lineForRel s { rel with lag := none }).map fun line => line.fromX) ∧
      ((lineForRel s rel).map fun line => line.fromY) =
        ((lineForRel s { rel with lag := none }).map fun line => line.fromY) ∧
      ((lineForRel s rel).map fun line => line.toY) =
        ((lineForRel s { rel with lag := none }).map fun line => line.toY)) ∧
    unitWidthQ s6 = 30 ∧
    ((lineForRel s6 relFS2).map fun line => line.toX) = some 210 ∧
    ((lineForRel s6 { relFS2 with lag := none }).map fun line => line.toX) = some 150 := by
  constructor
  · intro s rel l hlag
    cases hsm : taskMapGet s.tasks rel.sourceId with
    | none => simp [lineForRel, hsm]
    | some sourceTask =>
        cases htm : taskMapGet s.tasks rel.targetId with
        | none => simp [lineForRel, hsm, htm]
        | some targetTask =>
            cases hsi : s.tasks.findIdx? (fun t => t.id == sourceTask.id) with
            | none => simp [lineForRel, hsm, htm, hsi]
            | some sourceIndex =>
                cases hti : s.tasks.findIdx? (fun t => t.id == targetTask.id) with
                | none => simp [lineForRel, hsm, htm, hsi, hti]
                | some targetIndex =>
                    by_cases hl : l = 0
                    · simp [lineForRel, hsm, htm, hsi, hti, hlag, hl]
                    · simp [lineForRel, hsm, htm, hsi, hti, hlag, hl, mul_comm]
  · refine ⟨?_, ?_, ?_⟩
    · norm_num [unitWidthQ, getOptimalUnitWidth, getTotalUnits, getTotalDays, jsCeil,
        calculateCanvasWidth, s6, UNIT_WIDTHS, jsDiv, jsMin, jsMax, JSNum.toQ]
    · simp +decide only [lineForRel, taskMapGet, s6, relFS2, taskA, taskB, List.findIdx?,
        Option.map]
      norm_num [getXPositionForDate, unitWidthQ, getOptimalUnitWidth, getTotalUnits,
        getTotalDays, jsCeil, calculateCanvasWidth, s6, UNIT_WIDTHS, jsDiv, jsMin, jsMax, JSNum.toQ]
      simp +decide
    · simp +decide only [lineForRel, taskMapGet, s6, relFS2, taskA, taskB, List.findIdx?,
        Option.map]
      norm_num [getXPositionForDate, unitWidthQ, getOptimalUnitWidth, getTotalUnits,
        getTotalDays, jsCeil, calculateCanvasWidth, s6, UNIT_WIDTHS, jsDiv, jsMin, jsMax, JSNum.toQ]
      simp +decide

theorem C6_witness :
    relFS2.lag = some 2 ∧
    (((lineForRel s6 relFS2).map fun line => line.toX) =
      ((lineForRel s6 { relFS2 with lag := none }).map fun line => line.toX + 2 * unitWidthQ s6) ∧
    ((lineForRel s6 relFS2).map fun line => line.fromX) =
      ((lineForRel s6 { relFS2 with lag := none }).map fun line => line.fromX) ∧
    ((lineForRel s6 relFS2).map fun line => line.fromY) =
      ((lineForRel s6 { relFS2 with lag := none }).map fun line => line.fromY) ∧
    ((lineForRel s6 relFS2).map fun line => line.toY) =
      ((lineForRel s6 { relFS2 with lag := none }).map fun line => line.toY)) :=
  ⟨rfl, C6_lag_shifts_only_toX.1 s6 relFS2 2 rfl⟩

/-! Claim C7: dangling relationships are skipped entirely. -/

/-- Both endpoint ids of a relationship resolve in the task list. -/
def hasBothEndpoints (tasks : List GanttTask) (rel : GanttRelationship) : Bool :=
  (tasks.any fun t => t.id == rel.sourceId) && (tasks.any fun t => t.id == rel.targetId)

theorem taskMapGet_isSome_iff (tasks : List GanttTask) (i : String) :
    (taskMapGet tasks i).isSome = (tasks.any fun t => t.id == i) := by
  induction tasks with
  | nil => rfl
  | cons t ts ih =>
      simp only [taskMapGet, List.any_cons]
      cases hr : taskMapGet ts i with
      | some r =>
          rw [hr] at ih
          simp [← ih]
      | none =>
          rw [hr] at ih
          cases hb : (t.id == i) <;> simp [hb, ← ih]

theorem taskMapGet_eq_none_iff (tasks : List GanttTask) (i : String) :
    taskMapGet tasks i = none ↔ (tasks.any fun t => t.id == i) = false := by
  rw [← taskMapGet_isSome_iff]
  cases taskMapGet tasks i <;> simp

theorem taskMapGet_mem (tasks : List GanttTask) (i : String) (t : GanttTask)
    (h : taskMapGet tasks i = some t) : t ∈ tasks ∧ t.id = i := by
  induction tasks with
  | nil => cases h
  | cons t0 ts ih =>
      simp only [taskMapGet] at h
      cases hr : taskMapGet ts i with
      | some r =>
          rw [hr] at h
          cases h
          have := ih hr
          exact ⟨List.mem_cons_of_mem t0 this.1, this.2⟩
      | none =>
          rw [hr] at h
          split_ifs at h with hb
          · cases h
            exact ⟨List.mem_cons_self _ _, by simpa using hb⟩

theorem lineForRel_none_of_dangling (s : GanttView) (rel : GanttRelationship)
    (h : hasBothEndpoints s.tasks rel = false) : lineForRel s rel = none := by
  rw [hasBothEndpoints, Bool.and_eq_false_iff] at h
  rcases h with h | h
  · rw [lineForRel, (taskMapGet_eq_none_iff s.tasks rel.sourceId).mpr h]
  · rw [lineForRel, (taskMapGet_eq_none_iff s.tasks rel.targetId).mpr h]
    cases taskMapGet s.tasks rel.sourceId <;> rfl

theorem filterMap_filter_of_none (f : GanttRelationship → Option RelationshipLine)
    (p : GanttRelationship → Bool) (l : List GanttRelationship)
    (hp : ∀ x ∈ l, p x = false → f x = none) :
    (l.filter p).filterMap f = l.filterMap f := by
  induction l with
  | nil => rfl
  | cons x xs ih =>
      have ih' := ih fun a ha => hp a (List.mem_cons_of_mem x ha)
      cases hx : p x with
      | false =>
          rw [List.filter_cons_of_neg (by simp [hx]),
            List.filterMap_cons_none (hp x (List.mem_cons_self x xs) hx), ih']
      | true =>
          rw [List.filter_cons_of_pos (by simp [hx])]
          simp only [List.filterMap_cons, ih']

/-- C7: every relationship whose source or target id is absent from the task
list is skipped entirely by `calculateRelationshipLines`: it contributes no
line (so nothing to draw and nothing for the hover hit test to match), the
computed list equals the one computed from the well-formed relationships
alone, and every line that is produced references tasks present in the list. -/
theorem C7_dangling_skipped (s : GanttView) :
    (∀ rel, hasBothEndpoints s.tasks rel = false → lineForRel s rel = none) ∧
    calculateRelationshipLines s =
      calculateRelationshipLines
        { s with relationships := s.relationships.filter (hasBothEndpoints s.tasks) } ∧
    (∀ line ∈ calculateRelationshipLines s,
      line.sourceTask ∈ s.tasks ∧ line.targetTask ∈ s.tasks) := by
  refine ⟨fun rel => lineForRel_none_of_dangling s rel, ?_, ?_⟩
  · show s.relationships.filterMap (lineForRel s) =
      (s.relationships.filter (hasBothEndpoints s.tasks)).filterMap
        (lineForRel { s with relationships := s.relationships.filter (hasBothEndpoints s.tasks) })
    have hsame : lineForRel
        { s with relationships := s.relationships.filter (hasBothEndpoints s.tasks) } =
        lineForRel s := rfl
    rw [hsame]
    exact (filterMap_filter_of_none (lineForRel s) (hasBothEndpoints s.tasks) s.relationships
      (fun rel _ h => lineForRel_none_of_dangling s rel h)).symm
  · intro line hline
    rw [calculateRelationshipLines, List.mem_filterMap] at hline
    obtain ⟨rel, _, hrel⟩ := hline
    rw [lineForRel] at hrel
    cases hsm : taskMapGet s.tasks rel.sourceId with
    | none =>
        rw [hsm] at hrel
        cases hrel
    | some sourceTask =>
        cases htm : taskMapGet s.tasks rel.targetId with
        | none =>
            simp only [hsm, htm] at hrel
            cases hrel
        | some targetTask =>
            simp only [hsm, htm] at hrel
            cases hsi : s.tasks.findIdx? (fun t => t.id == sourceTask.id) with
            | none =>
                simp only [hsi] at hrel
                cases hrel
            | some sourceIndex =>
                cases hti : s.tasks.findIdx? (fun t => t.id == targetTask.id) with
                | none =>
                    simp only [hsi, hti] at hrel
                    cases hrel
                | some targetIndex =>
                    simp only [hsi, hti] at hrel
                    cases hrel
                    exact ⟨(taskMapGet_mem s.tasks rel.sourceId sourceTask hsm).1,
                      (taskMapGet_mem s.tasks rel.targetId targetTask htm).1⟩

/-- A state with one task and one relationship whose target id is unknown. -/
def relDangling : GanttRelationship :=
  { id := "r2", sourceId := "A", targetId := "Z", type := .SS, lag := none }

def s7 : GanttView := { tasks := [taskA], relationships := [relDangling] }

theorem C7_witness :
    hasBothEndpoints s7.tasks relDangling = false ∧
    lineForRel s7 relDangling = none ∧
    calculateRelationshipLines s7 =
      calculateRelationshipLines
        { s7 with relationships := s7.relationships.filter (hasBothEndpoints s7.tasks) } :=
  ⟨by decide, (C7_dangling_skipped s7).1 relDangling (by decide), (C7_dangling_skipped s7).2.1⟩

/-! Claim C1: the padded date range of a non-empty task list. -/

/-- `Math.min(...tasks.map(t => t.start.getTime()))`. -/
def minStart (s : GanttView) : ℤ := listMin (s.tasks.map fun t => t.start)

/-- `Math.max(...tasks.map(t => t.end.getTime()))`. -/
def maxEnd (s : GanttView) : ℤ := listMax (s.tasks.map fun t => t.«end»)

/-- `paddingDays = getTotalDays() * 0.05`, evaluated on the unpadded range.
Note there is no rounding in the source: this is a fraction of a day. -/
def paddingQ (s : GanttView) : ℚ :=
  ((getTotalDays { s with startDate := minStart s, endDate := maxEnd s }).val : ℚ) * (5 / 100)

theorem jsTrunc_int_add_nonneg (d : ℤ) (p : ℚ) (hd : 0 ≤ (d : ℚ) + p) :
    jsTrunc ((d : ℚ) + p) = d + ⌊p⌋ := by
  rw [jsTrunc, if_neg (not_lt.mpr hd), Int.floor_int_add]

theorem jsTrunc_int_sub (d : ℤ) (p : ℚ) (hp : 0 ≤ p) :
    jsTrunc ((d : ℚ) - p) = if p ≤ (d : ℚ) then d - ⌈p⌉ else d - ⌊p⌋ := by
  by_cases hc : p ≤ (d : ℚ)
  · rw [if_pos hc, jsTrunc, if_neg (not_lt.mpr (by linarith)), sub_eq_add_neg,
      Int.floor_int_add, Int.floor_neg]
    ring
  · rw [if_neg hc, jsTrunc, if_pos (by push_neg at hc; linarith)]
    have hswap : -((d : ℚ) - p) = p - (d : ℚ) := by ring
    rw [hswap, Int.floor_sub_int]
    ring

/-- C1 amended: for a non-empty task list with well-formed tasks, the
computed range still brackets the tasks
(`startDate ≤ min(start) ≤ max(end) ≤ endDate`), but the padding is not the
claimed symmetric `ceil(totalDays·0.05)`: since `setDate` truncates its
fractional argument toward zero, the end is extended by exactly
`floor(totalDays·0.05)` days and the start is moved back by
`ceil(totalDays·0.05)` days when the padding does not exceed the start's
day-of-month and by `floor(totalDays·0.05)` days otherwise. -/
theorem C1_amended_padding (now : ℤ) (s : GanttView) (h1 : s.tasks ≠ [])
    (h2 : ∀ t ∈ s.tasks, t.start ≤ t.«end») :
    (initializeDateRange now s).endDate = maxEnd s + ⌊paddingQ s⌋ * 86400000 ∧
    (initializeDateRange now s).startDate =
      minStart s -
        (if paddingQ s ≤ (getDate (minStart s) : ℚ) then ⌈paddingQ s⌉ else ⌊paddingQ s⌋) *
          86400000 ∧
    (initializeDateRange now s).startDate ≤ minStart s ∧
    (∀ t ∈ s.tasks, minStart s ≤ t.start ∧ t.«end» ≤ maxEnd s) ∧
    minStart s ≤ maxEnd s ∧
    maxEnd s ≤ (initializeDateRange now s).endDate := by
  have hne : s.tasks.isEmpty = false := by
    cases h : s.tasks with
    | nil => exact absurd h h1
    | cons a l => rfl
  have hmin_le : ∀ t ∈ s.tasks, minStart s ≤ t.start := fun t ht =>
    listMin_le _ _ (List.mem_map_of_mem _ ht)
  have hle_max : ∀ t ∈ s.tasks, t.«end» ≤ maxEnd s := fun t ht =>
    le_listMax _ _ (List.mem_map_of_mem _ ht)
  have hmm : minStart s ≤ maxEnd s := by
    cases h : s.tasks with
    | nil => exact absurd h h1
    | cons t0 ts =>
        have ha := hmin_le t0 (h ▸ List.mem_cons_self t0 ts)
        have hb := h2 t0 (h ▸ List.mem_cons_self t0 ts)
        have hc := hle_max t0 (h ▸ List.mem_cons_self t0 ts)
        omega
  have hproj1 : ({ s with startDate := minStart s, endDate := maxEnd s } : GanttView).endDate =
      maxEnd s := rfl
  have hproj2 : ({ s with startDate := minStart s, endDate := maxEnd s } : GanttView).startDate =
      minStart s := rfl
  have hn0 : (0 : ℤ) ≤
      (getTotalDays { s with startDate := minStart s, endDate := maxEnd s }).val := by
    rw [getTotalDays]
    simp only [jsCeil]
    apply Int.ceil_nonneg
    apply div_nonneg _ (by norm_num)
    exact_mod_cast sub_nonneg.mpr hmm
  have hp0 : (0 : ℚ) ≤ paddingQ s := by
    rw [paddingQ]
    exact mul_nonneg (by exact_mod_cast hn0) (by norm_num)
  have hcond : ¬ (s.tasks.isEmpty = true) := by
    rw [hne]
    exact Bool.false_ne_true
  have hEnd : (initializeDateRange now s).endDate =
      setDate (maxEnd s) (jsTrunc ((getDate (maxEnd s) : ℚ) + paddingQ s)) := by
    rw [initializeDateRange, if_neg hcond]
    rfl
  have hStart : (initializeDateRange now s).startDate =
      setDate (minStart s) (jsTrunc ((getDate (minStart s) : ℚ) - paddingQ s)) := by
    rw [initializeDateRange, if_neg hcond]
    rfl
  have hd2 := getDate_range (maxEnd s)
  have hdd : (0 : ℚ) ≤ (getDate (maxEnd s) : ℚ) + paddingQ s := by
    have : (1 : ℚ) ≤ (getDate (maxEnd s) : ℚ) := by exact_mod_cast hd2.1
    linarith
  have hEnd' : (initializeDateRange now s).endDate = maxEnd s + ⌊paddingQ s⌋ * 86400000 := by
    rw [hEnd, setDate_shift, jsTrunc_int_add_nonneg _ _ hdd]
    ring
  have hStart' : (initializeDateRange now s).startDate =
      minStart s -
        (if paddingQ s ≤ (getDate (minStart s) : ℚ) then ⌈paddingQ s⌉ else ⌊paddingQ s⌋) *
          86400000 := by
    rw [hStart, setDate_shift, jsTrunc_int_sub _ _ hp0]
    split_ifs <;> ring
  refine ⟨hEnd', hStart', ?_, fun t ht => ⟨hmin_le t ht, hle_max t ht⟩, hmm, ?_⟩
  · rw [hStart']
    have hc := Int.ceil_nonneg hp0
    have hf := Int.floor_nonneg.mpr hp0
    split_ifs <;> nlinarith
  · rw [hEnd']
    have hf := Int.floor_nonneg.mpr hp0
    nlinarith

/-- The scenario task: 2024-01-01T00:00Z to 2024-01-10T00:00Z. -/
def exTask1 : GanttTask :=
  { id := "T1", name := "Task 1", start := 1704067200000, «end» := 1704844800000 }

def sC1 : GanttView := { tasks := [exTask1] }

theorem paddingQ_sC1 : paddingQ sC1 = 9 / 20 := by
  rw [paddingQ]
  norm_num [getTotalDays, jsCeil, minStart, maxEnd, sC1, exTask1, listMin, listMax]

theorem C1_end_eval : (initializeDateRange 0 sC1).endDate = 1704844800000 := by
  have hcond : ¬ (sC1.tasks.isEmpty = true) := by decide
  rw [initializeDateRange, if_neg hcond]
  show setDate (maxEnd sC1) (jsTrunc ((getDate (maxEnd sC1) : ℚ) + paddingQ sC1)) = 1704844800000
  have h1 : maxEnd sC1 = 1704844800000 := by decide
  have h2 : getDate (1704844800000 : ℤ) = 10 := by decide
  rw [h1, h2, paddingQ_sC1]
  norm_num [jsTrunc]
  decide

/-- C1 counterexample: for the single task 2024-01-01 → 2024-01-10 the
unpadded day-span is 9 and the claimed `paddingDays = ceil(9·0.05) = 1`, so
the claim demands `endDate = max(end) + 1 day`; the code leaves
`endDate = max(end)` (the fractional padding 0.45 is truncated by
`setDate`). -/
theorem C1_counterexample :
    minStart sC1 = 1704067200000 ∧
    maxEnd sC1 = 1704844800000 ∧
    getTotalDays { sC1 with startDate := minStart sC1, endDate := maxEnd sC1 } =
      { val := 9, negZero := false } ∧
    (⌈((9 : ℤ) : ℚ) * (5 / 100)⌉ : ℤ) = 1 ∧
    (initializeDateRange 0 sC1).endDate = 1704844800000 ∧
    (1704844800000 : ℤ) ≠ 1704844800000 + 1 * 86400000 := by
  refine ⟨by decide, by decide, ?_,
    by rw [show ((9 : ℤ) : ℚ) * (5 / 100) = 9 / 20 by norm_num, Int.ceil_eq_iff] <;> norm_num,
    C1_end_eval, by decide⟩
  norm_num [getTotalDays, jsCeil, minStart, maxEnd, sC1, exTask1, listMin, listMax]

theorem C1_witness :
    sC1.tasks ≠ [] ∧
    (initializeDateRange 0 sC1).endDate = maxEnd sC1 + ⌊paddingQ sC1⌋ * 86400000 ∧
    (initializeDateRange 0 sC1).startDate ≤ minStart sC1 ∧
    maxEnd sC1 ≤ (initializeDateRange 0 sC1).endDate :=
  ⟨by decide, (C1_amended_padding 0 sC1 (by decide) (by decide)).1,
    (C1_amended_padding 0 sC1 (by decide) (by decide)).2.2.1,
    (C1_amended_padding 0 sC1 (by decide) (by decide)).2.2.2.2.2⟩

/-! Claim C2, continued: the `-0` counterexample.  A task whose `end`
precedes its `start` by less than a day (the component never validates task
ranges) survives `initializeDateRange` as a reversed sub-day range: the
padding `getTotalDays() * 0.05` is `-0 * 0.05 = -0`, so both `setDate`
calls leave their day-of-month unchanged.  On the resulting state
`Math.ceil` yields `-0`, the division gives `-∞` and the clamp resolves the
unit width to the day mode's `min`. -/

/-- A task reversed by 50 milliseconds: it starts 2024-01-01T00:00:00.000
and ends 2023-12-31T23:59:59.950. -/
def taskRev : GanttTask :=
  { id := "R", name := "Reversed", start := 1704067200000, «end» := 1704067199950 }

/-- Day view over the reversed task, with a 300-pixel canvas. -/
def sRev : GanttView := { tasks := [taskRev], viewMode := .day, canvasWidth := 300 }

/-- Any state whose range is the reversed sub-day range of `taskRev` has a
total day count of `-0`. -/
theorem getTotalDays_rev (s : GanttView) (h1 : s.startDate = 1704067200000)
    (h2 : s.endDate = 1704067199950) :
    getTotalDays s = { val := 0, negZero := true } := by
  rw [getTotalDays, h1, h2, jsCeil]
  simp only [JSInt.mk.injEq]
  constructor
  · rw [Int.ceil_eq_iff] <;> norm_num
  · rw [decide_eq_true_eq]
    norm_num

theorem paddingQ_sRev : paddingQ sRev = 0 := by
  have h1 : minStart sRev = 1704067200000 := by decide
  have h2 : maxEnd sRev = 1704067199950 := by decide
  rw [paddingQ, h1, h2, getTotalDays_rev _ rfl rfl]
  norm_num

theorem sRev_init_start : (initializeDateRange 0 sRev).startDate = 1704067200000 := by
  have hcond : ¬ (sRev.tasks.isEmpty = true) := by decide
  rw [initializeDateRange, if_neg hcond]
  show setDate (minStart sRev) (jsTrunc ((getDate (minStart sRev) : ℚ) - paddingQ sRev)) =
    1704067200000
  have h1 : minStart sRev = 1704067200000 := by decide
  have h2 : getDate (1704067200000 : ℤ) = 1 := by decide
  rw [h1, h2, paddingQ_sRev]
  norm_num [jsTrunc]
  decide

theorem sRev_init_end : (initializeDateRange 0 sRev).endDate = 1704067199950 := by
  have hcond : ¬ (sRev.tasks.isEmpty = true) := by decide
  rw [initializeDateRange, if_neg hcond]
  show setDate (maxEnd sRev) (jsTrunc ((getDate (maxEnd sRev) : ℚ) + paddingQ sRev)) =
    1704067199950
  have h1 : maxEnd sRev = 1704067199950 := by decide
  have h2 : getDate (1704067199950 : ℤ) = 31 := by decide
  rw [h1, h2, paddingQ_sRev]
  norm_num [jsTrunc]
  decide

theorem sRev_init_viewMode : (initializeDateRange 0 sRev).viewMode = ViewMode.day := by
  have hcond : ¬ (sRev.tasks.isEmpty = true) := by decide
  rw [initializeDateRange, if_neg hcond]
  rfl

theorem sRev_init_canvas : (initializeDateRange 0 sRev).canvasWidth = 300 := by
  have hcond : ¬ (sRev.tasks.isEmpty = true) := by decide
  rw [initializeDateRange, if_neg hcond]
  rfl

/-- The computed state's unit count is the IEEE `-0`. -/
theorem sRev_units :
    getTotalUnits (initializeDateRange 0 sRev) = { val := 0, negZero := true } := by
  rw [getTotalUnits, sRev_init_viewMode]
  exact getTotalDays_rev _ sRev_init_start sRev_init_end

/-- The resolved unit width on the computed state is 20 — the day `min`. -/
theorem sRev_width : getOptimalUnitWidth (initializeDateRange 0 sRev) = JSNum.num 20 := by
  have hcw : calculateCanvasWidth (initializeDateRange 0 sRev) = 300 := by
    rw [calculateCanvasWidth, sRev_init_canvas]
    norm_num
  rw [getOptimalUnitWidth, sRev_units, sRev_init_viewMode, hcw]
  norm_num [jsDiv, jsMin, jsMax, UNIT_WIDTHS]

/-- C2 counterexample: on the day-view state that `initializeDateRange`
builds from the single 50 ms-reversed task, the total unit count is zero
(the IEEE value is `-0`, which compares equal to `0`), yet the resolved
unit width is the day mode's `min` (20 px), not its `max` (40 px): the
division produced `-∞`, which the clamp maps to `min`. -/
theorem C2_counterexample :
    (getTotalUnits (initializeDateRange 0 sRev)).val = 0 ∧
    getOptimalUnitWidth (initializeDateRange 0 sRev) =
      JSNum.num (UNIT_WIDTHS (initializeDateRange 0 sRev).viewMode).min ∧
    getOptimalUnitWidth (initializeDateRange 0 sRev) ≠
      JSNum.num (UNIT_WIDTHS (initializeDateRange 0 sRev).viewMode).max := by
  refine ⟨by rw [sRev_units], ?_, ?_⟩
  · rw [sRev_width, sRev_init_viewMode]
    norm_num [UNIT_WIDTHS]
  · rw [sRev_width, sRev_init_viewMode]
    norm_num [UNIT_WIDTHS]

/-- Witness for the amended C2 theorem: it is applied at the degenerate
zero-length range (`+0` unit count, width = the mode's `max`) and at the
reversed sub-day range (`-0` unit count, width = the mode's `min`). -/
theorem C2_witness :
    ((getTotalUnits sC2).val = 0 ∧ (getTotalUnits sC2).negZero = false ∧
      getOptimalUnitWidth sC2 = JSNum.num (UNIT_WIDTHS sC2.viewMode).max) ∧
    ((getTotalUnits (initializeDateRange 0 sRev)).val = 0 ∧
      (getTotalUnits (initializeDateRange 0 sRev)).negZero = true ∧
      getOptimalUnitWidth (initializeDateRange 0 sRev) =
        JSNum.num (UNIT_WIDTHS (initializeDateRange 0 sRev).viewMode).min) := by
  have ha : (getTotalUnits sC2).val = 0 := by rw [sC2_totalUnits]
  have hb : (getTotalUnits sC2).negZero = false := by rw [sC2_totalUnits]
  have hc : (getTotalUnits (initializeDateRange 0 sRev)).val = 0 := by rw [sRev_units]
  have hd : (getTotalUnits (initializeDateRange 0 sRev)).negZero = true := by rw [sRev_units]
  exact ⟨⟨ha, hb, (C2_amended_unit_width sC2).2.2.2.1 ha hb⟩,
    ⟨hc, hd, (C2_amended_unit_width (initializeDateRange 0 sRev)).2.2.2.2 hc hd⟩⟩

/-! Claim C3: the empty-task fallback date range. -/

/-- Properties of the timestamp of January 1st, 00:00, of a given year: its
calendar components, and minimality among all timestamps of that year. -/
theorem jan1_instant (y : ℤ) :
    getFullYear (daysFromCivil y 0 1 * 86400000) = y ∧
    getMonth (daysFromCivil y 0 1 * 86400000) = 0 ∧
    getDate (daysFromCivil y 0 1 * 86400000) = 1 ∧
    timeWithinDay (daysFromCivil y 0 1 * 86400000) = 0 ∧
    (∀ t : ℤ, getFullYear t = y → daysFromCivil y 0 1 * 86400000 ≤ t) := by
  have hjs : jsDay (daysFromCivil y 0 1 * 86400000) = daysFromCivil y 0 1 := by
    rw [jsDay]
    omega
  have htw : timeWithinDay (daysFromCivil y 0 1 * 86400000) = 0 := by
    rw [timeWithinDay]
    omega
  have hcj := civil_jan1 y
  refine ⟨?_, ?_, ?_, htw, ?_⟩
  · rw [getFullYear, hjs, hcj]
  · rw [getMonth, hjs, hcj]
  · rw [getDate, hjs, hcj]
  · intro t ht
    by_contra hlt
    push_neg at hlt
    have hz : jsDay t ≤ daysFromCivil y 0 1 - 1 := by
      rw [jsDay]
      omega
    have hy2 := year_mono (jsDay t) (daysFromCivil y 0 1 - 1) hz
    rw [civil_dec31 y] at hy2
    rw [getFullYear] at ht
    simp only at hy2
    omega

/-- C3 amended: with no tasks, `startDate` is the first instant of the
current calendar year, but `endDate` is the first instant of the FOLLOWING
calendar year (midnight January 1st of year+1) — one millisecond past the
last instant of the current year — not the last instant itself.  The result
depends only on the current year (`getFullYear now`). -/
theorem C3_amended_default_range (now : ℤ) (s : GanttView) (he : s.tasks = [])
    (hy : 100 ≤ getFullYear now) :
    getFullYear (initializeDateRange now s).startDate = getFullYear now ∧
    getMonth (initializeDateRange now s).startDate = 0 ∧
    getDate (initializeDateRange now s).startDate = 1 ∧
    timeWithinDay (initializeDateRange now s).startDate = 0 ∧
    (∀ t : ℤ, getFullYear t = getFullYear now → (initializeDateRange now s).startDate ≤ t) ∧
    getFullYear (initializeDateRange now s).endDate = getFullYear now + 1 ∧
    getMonth (initializeDateRange now s).endDate = 0 ∧
    getDate (initializeDateRange now s).endDate = 1 ∧
    timeWithinDay (initializeDateRange now s).endDate = 0 ∧
    (∀ t : ℤ, getFullYear t = getFullYear now + 1 → (initializeDateRange now s).endDate ≤ t) ∧
    (initializeDateRange now s).endDate = makeDate (getFullYear now + 1) 0 1 := by
  have hcond : s.tasks.isEmpty = true := by
    rw [he]
    rfl
  have hStart : (initializeDateRange now s).startDate = makeDate (getFullYear now) 0 1 := by
    rw [initializeDateRange, if_pos hcond]
  have hEnd : (initializeDateRange now s).endDate = makeDate (getFullYear now + 1) 0 1 := by
    rw [initializeDateRange, if_pos hcond]
  have hq1 : makeDate (getFullYear now) 0 1 =
      daysFromCivil (getFullYear now) 0 1 * 86400000 := by
    rw [makeDate, if_neg (by omega)]
  have hq2 : makeDate (getFullYear now + 1) 0 1 =
      daysFromCivil (getFullYear now + 1) 0 1 * 86400000 := by
    rw [makeDate, if_neg (by omega)]
  have hs := jan1_instant (getFullYear now)
  have hend := jan1_instant (getFullYear now + 1)
  rw [hStart, hEnd, hq1, hq2]
  exact ⟨hs.1, hs.2.1, hs.2.2.1, hs.2.2.2.1, hs.2.2.2.2, hend.1, hend.2.1, hend.2.2.1,
    hend.2.2.2.1, hend.2.2.2.2, rfl⟩

/-- 2026-01-01T00:00 (day number 20454). -/
def now3 : ℤ := 1767225600000

def sC3 : GanttView := {}

/-- Modelled from the spec's words "the last instant of the current calendar
year": the millisecond just before midnight January 1st of the next year. -/
def lastInstantOfYear (y : ℤ) : ℤ := makeDate (y + 1) 0 1 - 1

/-- C3 counterexample: with no tasks, the computed `endDate` is midnight
January 1st of the NEXT year, which differs (by one millisecond) from the
last instant of the current calendar year that the claim demands. -/
theorem C3_counterexample :
    (initializeDateRange now3 sC3).endDate ≠ lastInstantOfYear (getFullYear now3) := by
  decide

theorem C3_witness :
    sC3.tasks = [] ∧ 100 ≤ getFullYear now3 ∧
    getFullYear (initializeDateRange now3 sC3).startDate = getFullYear now3 ∧
    (initializeDateRange now3 sC3).startDate ≤ now3 ∧
    (initializeDateRange now3 sC3).endDate = makeDate (getFullYear now3 + 1) 0 1 :=
  ⟨rfl, by decide, (C3_amended_default_range now3 sC3 rfl (by decide)).1,
    (C3_amended_default_range now3 sC3 rfl (by decide)).2.2.2.2.1 now3 rfl,
    (C3_amended_default_range now3 sC3 rfl (by decide)).2.2.2.2.2.2.2.2.2.2⟩
